import Mathlib

/-!
Verification of the contact-manager bot (address book with upcoming-birthday
query).  The Python source under `bot/` is shallowly embedded: dates become a
`PyDate` structure with Python's lexicographic `date` comparison, exceptions
become `Except String` / `Option`, and the mutable `Record` / `AddressBook`
objects become values threaded explicitly.
-/

/-- A Gregorian calendar date, as Python's `datetime.date` triple. -/
structure PyDate where
  year : Nat
  month : Nat
  day : Nat
deriving DecidableEq, Repr

/-- Gregorian leap-year rule (as used by Python's `datetime`). -/
def isLeapYear (y : Nat) : Bool :=
  (y % 4 == 0 && y % 100 != 0) || (y % 400 == 0)

/-- Number of days in month `m` of year `y`. -/
def daysInMonth (y m : Nat) : Nat :=
  if m = 2 then (if isLeapYear y then 29 else 28)
  else if m = 4 ∨ m = 6 ∨ m = 9 ∨ m = 11 then 30
  else 31

/-- Whether the triple is a real calendar date (what `datetime.date(y,m,d)`
accepts without raising `ValueError`). -/
def PyDate.valid (d : PyDate) : Bool :=
  1 ≤ d.year && 1 ≤ d.month && d.month ≤ 12 && 1 ≤ d.day && d.day ≤ daysInMonth d.year d.month

/-- Embeds `datetime.date(y, m, d)`: `none` models the `ValueError` raised on an
impossible date (e.g. Feb 29 of a non-leap year). -/
def mkDate (y m d : Nat) : Option PyDate :=
  if PyDate.valid ⟨y, m, d⟩ then some ⟨y, m, d⟩ else none

/-- Python's `date` strict comparison: lexicographic on (year, month, day). -/
def PyDate.lt (a b : PyDate) : Bool :=
  a.year < b.year ||
    (a.year == b.year && (a.month < b.month ||
      (a.month == b.month && a.day < b.day)))

/-- Python's `date` non-strict comparison. -/
def PyDate.le (a b : PyDate) : Bool :=
  a.lt b || (a.year == b.year && a.month == b.month && a.day == b.day)

/-- Days before January 1 of year `y`, counting from the proleptic year 1
(the quantity `date(y,1,1).toordinal() - 1`). -/
def daysBeforeYear (y : Nat) : Nat :=
  365 * (y - 1) + (y - 1) / 4 - (y - 1) / 100 + (y - 1) / 400

/-- Days in year `y` strictly before month `m`. -/
def daysBeforeMonth (y m : Nat) : Nat :=
  ((List.range (m - 1)).map (fun i => daysInMonth y (i + 1))).sum

/-- Python's `date.toordinal`: day 1 is 0001-01-01. -/
def PyDate.toOrdinal (d : PyDate) : Nat :=
  daysBeforeYear d.year + daysBeforeMonth d.year d.month + d.day

/-- Python's `date.weekday()`: Monday = 0 … Sunday = 6 (0001-01-01, ordinal 1,
was a Monday). -/
def PyDate.weekday (d : PyDate) : Nat :=
  (d.toOrdinal + 6) % 7

/-- The calendar successor of a date. -/
def PyDate.nextDay (d : PyDate) : PyDate :=
  if d.day < daysInMonth d.year d.month then ⟨d.year, d.month, d.day + 1⟩
  else if d.month < 12 then ⟨d.year, d.month + 1, 1⟩
  else ⟨d.year + 1, 1, 1⟩

/-- Python's `d + timedelta(days = n)` for `n ≥ 0`. -/
def PyDate.addDays (d : PyDate) : Nat → PyDate
  | 0 => d
  | n + 1 => PyDate.nextDay (PyDate.addDays d n)

/-- Modelled from the spec: `bot/models/phone.py` is not under `src/`.
Per the spec, `Phone(raw)` "fails with `ValidationError` unless `raw` is
exactly 10 characters, all decimal digits", and stores the raw string
verbatim (`Phone.value`).  `Except.error` models the raised
`ValidationError`. -/
def mkPhone (raw : String) : Except String String :=
  if raw.length = 10 && raw.data.all Char.isDigit then Except.ok raw
  else Except.error "ValidationError"

/-- Splits a character list at every dot, as Python's `str.split(".")`. -/
def splitDots : List Char → List (List Char)
  | [] => [[]]
  | c :: rest =>
    let r := splitDots rest
    if c = '.' then [] :: r
    else
      match r with
      | [] => [[c]]
      | g :: gs => (c :: g) :: gs

/-- Numeric value of a list of decimal digit characters. -/
def digitsVal (l : List Char) : Nat :=
  l.foldl (fun acc c => 10 * acc + (c.toNat - 48)) 0

/-- Modelled from the spec: `bot/models/birthday.py` is not under `src/`.
Per the spec, `Birthday(raw)` "parses `raw` as `dd.mm.yyyy`; fails with
`ValidationError` on any parse failure (wrong format, day/month out of
range, non-existent date such as 31.02)"; the value is "stored as a date
value, not a string".  `none` models the raised `ValidationError`. -/
def parseBirthday (raw : String) : Option PyDate :=
  match splitDots raw.data with
  | [ds, ms, ys] =>
    if ds.length = 2 && ms.length = 2 && ys.length = 4 &&
        ds.all Char.isDigit && ms.all Char.isDigit && ys.all Char.isDigit then
      let d := digitsVal ds
      let m := digitsVal ms
      let y := digitsVal ys
      if PyDate.valid ⟨y, m, d⟩ then some ⟨y, m, d⟩ else none
    else none
  | _ => none

/-- A contact record (`bot/models/record.py`): a name, an ordered list of
phone values, and an optional birthday date.  Phones are stored as their
validated string values (`Phone.value`); the birthday as its parsed date
(`Birthday.value`). -/
structure Record where
  name : String
  phones : List String
  birthday : Option PyDate
deriving DecidableEq, Repr

/-- Embeds `Record.add_phone`: constructs a `Phone` (propagating its validation
failure) and appends it to the list. -/
def Record.add_phone (r : Record) (phone_number : String) : Except String Record :=
  match mkPhone phone_number with
  | Except.error e => Except.error e
  | Except.ok p => Except.ok { r with phones := r.phones ++ [p] }

/-- Embeds `Record.remove_phone`: keeps exactly the entries whose value differs from
`phone_number` (removes every match; never fails). -/
def Record.remove_phone (r : Record) (phone_number : String) : Record :=
  { r with phones := r.phones.filter (fun p => p ≠ phone_number) }

/-- Embeds `Record.edit_phone`: add the new number first, then remove the old one. -/
def Record.edit_phone (r : Record) (old_phone_number new_phone_number : String) :
    Except String Record :=
  match r.add_phone new_phone_number with
  | Except.error e => Except.error e
  | Except.ok r1 => Except.ok (r1.remove_phone old_phone_number)

/-- Embeds `Record.find_phone`: first entry equal to `phone_number`, if any. -/
def Record.find_phone (r : Record) (phone_number : String) : Option String :=
  r.phones.find? (fun p => p = phone_number)

/-- Embeds `Record.add_birthday`: stores the parsed birthday if none is set,
otherwise raises `ValueError("Birthday is already set")`. -/
def Record.add_birthday (r : Record) (birthday : String) : Except String Record :=
  match r.birthday with
  | some _ => Except.error "Birthday is already set"
  | none =>
    match parseBirthday birthday with
    | none => Except.error "ValidationError"
    | some d => Except.ok { r with birthday := some d }

/-- Embeds `AddressBook.data`: a name-keyed mapping in insertion order (Python
`dict`), embedded as an association list with unique keys. -/
abbrev AddressBook := List (String × Record)

/-- Embeds `AddressBook.find`: exact-match lookup, `None` when absent. -/
def AddressBook.find (book : AddressBook) (name : String) : Option Record :=
  (book.find? (fun p => p.1 = name)).map Prod.snd

/-- Replaces the record stored under key `k` (the in-place mutation of the
record object held by the dict). -/
def AddressBook.update (book : AddressBook) (k : String) (v : Record) : AddressBook :=
  book.map (fun p => if p.1 = k then (p.1, v) else p)

/-- Embeds `AddressBook._is_date_within_days`: builds this year's (month, day) of
`target_date` (possibly raising, modelled by `none`), rolls it to next year
when strictly past, and tests membership in `[today, today + days]`. -/
def is_date_within_days (today target_date : PyDate) (days : Nat) : Option Bool :=
  match mkDate today.year target_date.month target_date.day with
  | none => none
  | some date_this_year =>
    if date_this_year.lt today then
      match mkDate (today.year + 1) target_date.month target_date.day with
      | none => none
      | some t => some (today.le t && t.le (today.addDays days))
    else
      some (today.le date_this_year && date_this_year.le (today.addDays days))

/-- Embeds `AddressBook._adjust_to_weekday`: Saturday shifts forward 2 days, Sunday
1 day, otherwise unchanged. -/
def adjust_to_weekday (date_obj : PyDate) : PyDate :=
  if date_obj.weekday = 5 then date_obj.addDays 2
  else if date_obj.weekday = 6 then date_obj.addDays 1
  else date_obj

/-- Zero-padded two-digit rendering, as `strftime` field `%d` / `%m`. -/
def pad2 (n : Nat) : String :=
  if n < 10 then "0" ++ toString n else toString n

/-- Renders as `strftime("%d.%m.%Y")` does. -/
def renderDate (d : PyDate) : String :=
  pad2 d.day ++ "." ++ pad2 d.month ++ "." ++ toString d.year

/-- One loop iteration of `AddressBook.get_upcoming_birthdays` for a single
record: `some entry` when the record contributes a line, `none` when it has
no birthday, is outside the window, or a `ValueError` was swallowed by the
`try`/`except` around the body. -/
def entryFor (today : PyDate) (record : Record) : Option String :=
  match record.birthday with
  | none => none
  | some user_birthday =>
    match is_date_within_days today user_birthday 7 with
    | none => none
    | some false => none
    | some true =>
      match mkDate today.year user_birthday.month user_birthday.day with
      | none => none
      | some birthday_this_year =>
        match (if birthday_this_year.lt today then
                mkDate (today.year + 1) user_birthday.month user_birthday.day
              else some birthday_this_year) with
        | none => none
        | some congratulation_date =>
          some ("Contact name: " ++ record.name ++ ", birthday: " ++
            renderDate (adjust_to_weekday congratulation_date))

/-- Python's `"\n".join`. -/
def joinLines : List String → String
  | [] => ""
  | [s] => s
  | s :: rest => s ++ "\n" ++ joinLines rest

/-- Embeds `AddressBook.get_upcoming_birthdays`: the entries of the records (in
insertion order) that pass the window test, newline-joined; `today` stands
for `datetime.now().date()`. -/
def get_upcoming_birthdays (today : PyDate) (book : AddressBook) : String :=
  joinLines ((book.map Prod.snd).filterMap (entryFor today))

/-- Handler `birthdays` (`bot/cli/handlers.py`): "No contacts." for an empty
book, otherwise the query result. -/
def birthdays (today : PyDate) (book : AddressBook) : String :=
  if book.isEmpty then "No contacts." else get_upcoming_birthdays today book

/-- Handler `change_contact` (`bot/cli/handlers.py`), returning the reply
together with the resulting book state.  The `@input_error` decorator lives
in `bot/cli/input_error.py`, which is not under `src/`; modelled from the
spec: "the handler layer is the single recovery boundary that converts every
raised failure ... into a uniform user-facing string" — a raised failure is
returned as its message string, with the book left as it was at the raise
(the only raise reachable here, inside `edit_phone`'s `add_phone`, happens
before any mutation). -/
def change_contact (args : List String) (book : AddressBook) : String × AddressBook :=
  if args.length < 3 then
    ("Insufficient arguments. Usage: change <name> <old_phone> <new_phone>", book)
  else
    match args with
    | [name_str, old_phone_str, new_phone_str] =>
      match AddressBook.find book name_str with
      | none => ("No contact found with name " ++ name_str ++ ".", book)
      | some record =>
        match record.find_phone old_phone_str with
        | none =>
          ("No phone number " ++ old_phone_str ++ " found for contact " ++ name_str ++ ".",
            book)
        | some _ =>
          match record.edit_phone old_phone_str new_phone_str with
          | Except.error e => (e, book)
          | Except.ok r1 => ("Contact updated.", book.update name_str r1)
    | _ => ("ValueError", book)

/-- The claim-side candidate occurrence: this year's (month, day) when that
date is on or after today, otherwise next year's (month, day). -/
def nextOccurrence (today target : PyDate) : Option PyDate :=
  match mkDate today.year target.month target.day with
  | none => none
  | some thisYear =>
    if today.le thisYear then some thisYear
    else mkDate (today.year + 1) target.month target.day

theorem PyDate.lt_iff (a b : PyDate) : a.lt b = true ↔
    (a.year < b.year ∨ (a.year = b.year ∧ (a.month < b.month ∨
      (a.month = b.month ∧ a.day < b.day)))) := by
  simp [PyDate.lt]

theorem PyDate.le_iff (a b : PyDate) : a.le b = true ↔
    (a.year < b.year ∨ (a.year = b.year ∧ (a.month < b.month ∨
      (a.month = b.month ∧ (a.day < b.day ∨ a.day = b.day))))) := by
  simp [PyDate.le, PyDate.lt_iff]
  constructor
  · rintro (h | h)
    · tauto
    · omega
  · intro h
    by_cases hy : a.year = b.year
    · by_cases hm : a.month = b.month
      · omega
      · omega
    · omega

theorem PyDate.le_of_not_lt (a b : PyDate) (h : PyDate.lt a b = false) :
    PyDate.le b a = true := by
  have h1 := PyDate.lt_iff a b
  rw [PyDate.le_iff]
  rw [h] at h1
  simp at h1
  omega

theorem PyDate.not_le_of_lt (a b : PyDate) (h : PyDate.lt a b = true) :
    PyDate.le b a = false := by
  have h1 := (PyDate.lt_iff a b).mp h
  by_contra hc
  have h2 : PyDate.le b a = true := by
    cases hle : PyDate.le b a
    · exact absurd hle hc
    · rfl
  have h3 := (PyDate.le_iff b a).mp h2
  omega

theorem PyDate.le_refl (a : PyDate) : PyDate.le a a = true := by
  rw [PyDate.le_iff]
  omega

theorem mkDate_eq_some (y m d : Nat) (t : PyDate) (h : mkDate y m d = some t) :
    t = ⟨y, m, d⟩ := by
  unfold mkDate at h
  split at h <;> simp_all

theorem PyDate.le_next_year (today : PyDate) (m d : Nat) :
    PyDate.le today ⟨today.year + 1, m, d⟩ = true := by
  rw [PyDate.le_iff]
  simp

/-- C1: a record's birthday passes `_is_date_within_days` (the inclusion test
of `get_upcoming_birthdays`, with its 7-day window) exactly when the next
occurrence of its (month, day) — this year's date when on or after today,
otherwise next year's — lies in the inclusive window
`[today, today + 7 days]`; and the candidate occurrence is never a past
date. -/
theorem birthday_inclusion_test (today target : PyDate) :
    (is_date_within_days today target 7 = some true ↔
      ∃ occ, nextOccurrence today target = some occ ∧
        PyDate.le today occ = true ∧ PyDate.le occ (today.addDays 7) = true) ∧
    (∀ occ, nextOccurrence today target = some occ →
      PyDate.le today occ = true) := by
  rcases hty : mkDate today.year target.month target.day with _ | dty
  · constructor
    · simp [is_date_within_days, nextOccurrence, hty]
    · intro occ h
      simp [nextOccurrence, hty] at h
  · obtain rfl : dty = ⟨today.year, target.month, target.day⟩ :=
      mkDate_eq_some _ _ _ _ hty
    cases hlt : PyDate.lt ⟨today.year, target.month, target.day⟩ today with
    | false =>
      have hle := PyDate.le_of_not_lt _ _ hlt
      constructor
      · simp [is_date_within_days, nextOccurrence, hty, hlt, hle]
      · intro occ h
        simp [nextOccurrence, hty, hle] at h
        subst h
        exact hle
    | true =>
      have hle := PyDate.not_le_of_lt _ _ hlt
      rcases hny : mkDate (today.year + 1) target.month target.day with _ | t
      · constructor
        · simp [is_date_within_days, nextOccurrence, hty, hlt, hle, hny]
        · intro occ h
          simp [nextOccurrence, hty, hle, hny] at h
      · obtain rfl : t = ⟨today.year + 1, target.month, target.day⟩ :=
          mkDate_eq_some _ _ _ _ hny
        have hlenext := PyDate.le_next_year today target.month target.day
        constructor
        · simp [is_date_within_days, nextOccurrence, hty, hlt, hle, hny, hlenext]
        · intro occ h
          simp [nextOccurrence, hty, hle, hny] at h
          subst h
          exact hlenext

theorem PyDate.not_lt_of_le (a b : PyDate) (h : PyDate.le a b = true) :
    PyDate.lt b a = false := by
  have h1 := (PyDate.le_iff a b).mp h
  cases hc : PyDate.lt b a with
  | false => rfl
  | true =>
    have h2 := (PyDate.lt_iff b a).mp hc
    omega

theorem PyDate.lt_of_not_le (a b : PyDate) (h : PyDate.le a b = false) :
    PyDate.lt b a = true := by
  rw [PyDate.lt_iff]
  by_contra hc
  have h2 : PyDate.le a b = true := by
    rw [PyDate.le_iff]
    omega
  rw [h] at h2
  exact Bool.false_ne_true h2

theorem nextOccurrence_window_entry (today b occ : PyDate)
    (hocc : nextOccurrence today b = some occ)
    (hwin : PyDate.le occ (today.addDays 7) = true) :
    is_date_within_days today b 7 = some true ∧
    ∃ bty, mkDate today.year b.month b.day = some bty ∧
      (if bty.lt today then mkDate (today.year + 1) b.month b.day
        else some bty) = some occ := by
  rcases hty : mkDate today.year b.month b.day with _ | bty
  · rw [nextOccurrence, hty] at hocc
    simp at hocc
  · rw [nextOccurrence, hty] at hocc
    cases hle : PyDate.le today bty with
    | true =>
      simp only [hle, if_true] at hocc
      simp at hocc
      subst hocc
      have hlt := PyDate.not_lt_of_le _ _ hle
      refine ⟨?_, bty, rfl, by simp [hlt]⟩
      rw [is_date_within_days, hty]
      simp [hlt, hle, hwin]
    | false =>
      simp only [hle, Bool.false_eq_true, if_false] at hocc
      have hlt := PyDate.lt_of_not_le _ _ hle
      have hoccshape := mkDate_eq_some _ _ _ _ hocc
      have hlenext : PyDate.le today occ = true := by
        rw [hoccshape]
        exact PyDate.le_next_year today b.month b.day
      refine ⟨?_, bty, rfl, by simp [hlt]; exact hocc⟩
      rw [is_date_within_days, hty]
      simp [hlt, hocc, hlenext, hwin]

/-- C2: the weekend shift is applied only to the rendered congratulation
date, after inclusion has been decided on the pre-shift occurrence: every
record whose unshifted occurrence lies in the 7-day window and falls on a
Saturday (weekday 5) or Sunday (weekday 6) is still included, and its line
renders `adjust_to_weekday` of that occurrence — with no requirement that
the shifted date still lie inside the window. -/
theorem weekend_shift_after_inclusion (today : PyDate) (r : Record) (b occ : PyDate)
    (hb : r.birthday = some b)
    (hocc : nextOccurrence today b = some occ)
    (hlo : PyDate.le today occ = true)
    (hwin : PyDate.le occ (today.addDays 7) = true)
    (hweekend : occ.weekday = 5 ∨ occ.weekday = 6) :
    entryFor today r = some ("Contact name: " ++ r.name ++ ", birthday: " ++
      renderDate (adjust_to_weekday occ)) := by
  obtain ⟨hin, bty, hty, hcong⟩ := nextOccurrence_window_entry today b occ hocc hwin
  simp only [entryFor, hb, hin, hty, hcong]

theorem birthday_inclusion_test_witness :
    is_date_within_days ⟨2023, 3, 1⟩ ⟨1985, 3, 3⟩ 7 = some true ∧
    PyDate.le ⟨2023, 3, 1⟩ ⟨2023, 3, 3⟩ = true := by
  constructor
  · exact (birthday_inclusion_test ⟨2023, 3, 1⟩ ⟨1985, 3, 3⟩).1.mpr
      ⟨⟨2023, 3, 3⟩, by decide, by decide, by decide⟩
  · exact (birthday_inclusion_test ⟨2023, 3, 1⟩ ⟨1985, 3, 3⟩).2 ⟨2023, 3, 3⟩ (by decide)

theorem weekend_shift_after_inclusion_witness :
    entryFor ⟨2024, 6, 8⟩
        { name := "Cara", phones := [], birthday := some ⟨1992, 6, 15⟩ } =
      some "Contact name: Cara, birthday: 17.06.2024" ∧
    PyDate.le (adjust_to_weekday ⟨2024, 6, 15⟩) (PyDate.addDays ⟨2024, 6, 8⟩ 7) = false := by
  constructor
  · exact (weekend_shift_after_inclusion ⟨2024, 6, 8⟩
      { name := "Cara", phones := [], birthday := some ⟨1992, 6, 15⟩ }
      ⟨1992, 6, 15⟩ ⟨2024, 6, 15⟩ rfl (by decide) (by decide) (by decide)
      (Or.inl (by decide))).trans (by decide)
  · decide

/-- C3: when the window check for a record's birthday raises a `ValueError`
(`is_date_within_days` returning `none` — either the this-year construction
failing, e.g. a Feb 29 birthday with a non-leap current year, or the rolled
next-year construction failing, e.g. a Feb 29 birthday checked on
2024-03-01 against non-leap 2025), `get_upcoming_birthdays` silently omits
that record and returns exactly what it returns for the book without it —
the query is not aborted.  These are the only raise sites: the loop body
after a `some true` check only rebuilds the very dates that the check
already built successfully. -/
theorem construction_failure_skips_record (today : PyDate) (l1 l2 : AddressBook)
    (n : String) (r : Record) (b : PyDate)
    (hb : r.birthday = some b)
    (hfail : is_date_within_days today b 7 = none) :
    get_upcoming_birthdays today (l1 ++ (n, r) :: l2) =
      get_upcoming_birthdays today (l1 ++ l2) := by
  have hnone : entryFor today r = none := by
    simp only [entryFor, hb, hfail]
  simp [get_upcoming_birthdays, hnone]

theorem construction_failure_skips_record_witness :
    is_date_within_days ⟨2024, 3, 1⟩ ⟨2020, 2, 29⟩ 7 = none ∧
    mkDate 2024 2 29 = some ⟨2024, 2, 29⟩ ∧
    get_upcoming_birthdays ⟨2024, 3, 1⟩
        [("Bob", { name := "Bob", phones := [], birthday := some ⟨1985, 3, 3⟩ }),
         ("Leap", { name := "Leap", phones := [], birthday := some ⟨2020, 2, 29⟩ })] =
      get_upcoming_birthdays ⟨2024, 3, 1⟩
        [("Bob", { name := "Bob", phones := [], birthday := some ⟨1985, 3, 3⟩ })] ∧
    get_upcoming_birthdays ⟨2024, 3, 1⟩
        [("Bob", { name := "Bob", phones := [], birthday := some ⟨1985, 3, 3⟩ })] =
      "Contact name: Bob, birthday: 04.03.2024" := by
  refine ⟨by decide, by decide, ?_, by decide⟩
  exact construction_failure_skips_record ⟨2024, 3, 1⟩
    [("Bob", { name := "Bob", phones := [], birthday := some ⟨1985, 3, 3⟩ })] []
    "Leap" { name := "Leap", phones := [], birthday := some ⟨2020, 2, 29⟩ }
    ⟨2020, 2, 29⟩ rfl (by decide)

theorem mkPhone_ok (raw p : String) (h : mkPhone raw = Except.ok p) : p = raw := by
  unfold mkPhone at h
  split at h <;> simp_all

theorem edit_phone_same_number_counterexample :
    Record.edit_phone
        { name := "John", phones := ["1234567890"], birthday := none }
        "1234567890" "1234567890" =
      Except.ok { name := "John", phones := [], birthday := none } := by
  rfl

/-- C4 amended: `edit_phone(x, x)` does the add first, but the subsequent
`remove_phone` filters out every entry equal to `x`, including the copy just
added — whenever the call succeeds, the resulting list is the original list
with every `x` removed, so no entry with value `x` remains. -/
theorem edit_phone_same_number_removes_all (r r' : Record) (x : String)
    (h : Record.edit_phone r x x = Except.ok r') :
    r'.phones = r.phones.filter (fun p => p ≠ x) ∧ x ∉ r'.phones := by
  rw [Record.edit_phone, Record.add_phone] at h
  cases hp : mkPhone x with
  | error e =>
    rw [hp] at h
    simp at h
  | ok p =>
    obtain rfl : x = p := (mkPhone_ok _ _ hp).symm
    rw [hp] at h
    simp only [Except.ok.injEq] at h
    subst h
    constructor
    · show ((r.phones ++ [x]).filter (fun p => p ≠ x)) = _
      simp [List.filter_append]
    · simp [Record.remove_phone, List.mem_filter]

theorem edit_phone_same_number_removes_all_witness :
    ({ name := "John", phones := ["0000000000"], birthday := none } : Record).phones =
      (["1234567890", "0000000000"] : List String).filter (fun p => p ≠ "1234567890") ∧
    "1234567890" ∉
      ({ name := "John", phones := ["0000000000"], birthday := none } : Record).phones :=
  edit_phone_same_number_removes_all
    { name := "John", phones := ["1234567890", "0000000000"], birthday := none }
    { name := "John", phones := ["0000000000"], birthday := none }
    "1234567890" (by rfl)

theorem length_filter_ne (l : List String) (x : String) :
    (l.filter (fun p => p ≠ x)).length + l.count x = l.length := by
  induction l with
  | nil => simp
  | cons a t ih =>
    simp only [List.filter_cons, List.count_cons]
    by_cases hax : a = x
    · subst hax
      simp at ih ⊢
      omega
    · simp [hax] at ih ⊢
      omega

theorem edit_phone_duplicate_old_counterexample :
    Record.edit_phone
        { name := "John", phones := ["1111111111", "1111111111"], birthday := none }
        "1111111111" "2222222222" =
      Except.ok { name := "John", phones := ["2222222222"], birthday := none } ∧
    (["2222222222"] : List String).length ≠
      (["1111111111", "1111111111"] : List String).length := by
  constructor
  · rfl
  · decide

/-- C5 amended: under the extra assumption that exactly one entry equals
`old` (the original claim fails when the list holds duplicate copies of
`old`, since `remove_phone` deletes all of them), a successful
`edit_phone(old, new)` with `old ≠ new` and no prior entry equal to `new`
yields a list that contains `new`, does not contain `old`, and has the same
length as before. -/
theorem edit_phone_replaces_unique_old (r r' : Record) (old_phone new_phone : String)
    (hcount : r.phones.count old_phone = 1)
    (hne : old_phone ≠ new_phone)
    (hnew : new_phone ∉ r.phones)
    (h : Record.edit_phone r old_phone new_phone = Except.ok r') :
    new_phone ∈ r'.phones ∧ old_phone ∉ r'.phones ∧
      r'.phones.length = r.phones.length := by
  rw [Record.edit_phone, Record.add_phone] at h
  cases hp : mkPhone new_phone with
  | error e =>
    rw [hp] at h
    simp at h
  | ok p =>
    obtain rfl : new_phone = p := (mkPhone_ok _ _ hp).symm
    rw [hp] at h
    simp only [Except.ok.injEq] at h
    subst h
    have hfilter : ((r.phones ++ [new_phone]).filter (fun p => p ≠ old_phone)) =
        r.phones.filter (fun p => p ≠ old_phone) ++ [new_phone] := by
      simp [List.filter_append, Ne.symm hne]
    refine ⟨?_, ?_, ?_⟩
    · show new_phone ∈ (r.phones ++ [new_phone]).filter (fun p => p ≠ old_phone)
      rw [hfilter]
      simp
    · show old_phone ∉ (r.phones ++ [new_phone]).filter (fun p => p ≠ old_phone)
      simp [List.mem_filter]
    · show ((r.phones ++ [new_phone]).filter (fun p => p ≠ old_phone)).length = _
      rw [hfilter]
      have := length_filter_ne r.phones old_phone
      simp only [List.length_append, List.length_cons, List.length_nil]
      omega

theorem edit_phone_replaces_unique_old_witness :
    "2222222222" ∈
      ({ name := "John", phones := ["2222222222"], birthday := none } : Record).phones ∧
    "1111111111" ∉
      ({ name := "John", phones := ["2222222222"], birthday := none } : Record).phones ∧
    ({ name := "John", phones := ["2222222222"], birthday := none } : Record).phones.length =
      ({ name := "John", phones := ["1111111111"], birthday := none } : Record).phones.length :=
  edit_phone_replaces_unique_old
    { name := "John", phones := ["1111111111"], birthday := none }
    { name := "John", phones := ["2222222222"], birthday := none }
    "1111111111" "2222222222" (by decide) (by decide) (by decide) (by rfl)

theorem change_contact_scenario_e_counterexample :
    ¬ ((AddressBook.find
        (change_contact ["John", "987654321", "111111111"]
          [("John", { name := "John", phones := ["987654321"], birthday := none })]).2
        "John").map Record.phones = some ["111111111"]) ∧
    (change_contact ["John", "987654321", "111111111"]
        [("John", { name := "John", phones := ["987654321"], birthday := none })]).2 =
      [("John", { name := "John", phones := ["987654321"], birthday := none })] := by
  constructor
  · intro h
    simp only [show (change_contact ["John", "987654321", "111111111"]
      [("John", { name := "John", phones := ["987654321"], birthday := none })]).2 =
      [("John", { name := "John", phones := ["987654321"], birthday := none })] from rfl] at h
    simp [AddressBook.find] at h
  · rfl

/-- C6 amended: with 10-digit phone numbers (9-digit strings fail the
spec's phone validation) the first `change` succeeds and the list becomes
`["1111111111"]`; repeating the identical `change` call does not produce a
two-element list: the handler's `find_phone` guard returns "No phone number
9876543210 found for contact John." and leaves the one-element list
unchanged (the two-element outcome would require calling `edit_phone`
directly, bypassing the guard). -/
theorem change_contact_scenario_e_amended :
    change_contact ["John", "9876543210", "1111111111"]
        [("John", { name := "John", phones := ["9876543210"], birthday := none })] =
      ("Contact updated.",
        [("John", { name := "John", phones := ["1111111111"], birthday := none })]) ∧
    change_contact ["John", "9876543210", "1111111111"]
        [("John", { name := "John", phones := ["1111111111"], birthday := none })] =
      ("No phone number 9876543210 found for contact John.",
        [("John", { name := "John", phones := ["1111111111"], birthday := none })]) := by
  constructor
  · rfl
  · rfl

/-- C7: on a record with no birthday, a first `add_birthday` whose date
parses stores exactly that date; a second `add_birthday` on the resulting
record — with any argument — raises the already-set failure instead of
overwriting, so (exceptions leaving the record untouched) the first stored
value is retained. -/
theorem add_birthday_set_once (r : Record) (raw raw2 : String) (d : PyDate)
    (h0 : r.birthday = none) (h1 : parseBirthday raw = some d) :
    Record.add_birthday r raw = Except.ok { r with birthday := some d } ∧
    Record.add_birthday { r with birthday := some d } raw2 =
      Except.error "Birthday is already set" := by
  constructor
  · simp only [Record.add_birthday, h0, h1]
  · rfl

theorem add_birthday_set_once_witness :
    Record.add_birthday { name := "Ann", phones := [], birthday := none } "15.06.1992" =
      Except.ok { name := "Ann", phones := [], birthday := some ⟨1992, 6, 15⟩ } ∧
    Record.add_birthday { name := "Ann", phones := [], birthday := some ⟨1992, 6, 15⟩ }
        "01.01.2000" =
      Except.error "Birthday is already set" :=
  add_birthday_set_once { name := "Ann", phones := [], birthday := none }
    "15.06.1992" "01.01.2000" ⟨1992, 6, 15⟩ rfl (by decide)

/-- C8: `Phone` construction succeeds — round-tripping the stored value to
the very same string — exactly when the input is 10 characters long and
every character is a decimal digit; otherwise it fails with
`ValidationError`. -/
theorem phone_validation (raw : String) :
    (mkPhone raw = Except.ok raw ↔
      (raw.length = 10 ∧ raw.data.all Char.isDigit = true)) ∧
    (¬ (raw.length = 10 ∧ raw.data.all Char.isDigit = true) →
      mkPhone raw = Except.error "ValidationError") := by
  by_cases h10 : raw.length = 10
  · by_cases hdig : raw.data.all Char.isDigit = true
    · simp [mkPhone, h10, hdig]
    · simp [mkPhone, h10, hdig]
  · simp [mkPhone, h10]

theorem phone_validation_witness :
    mkPhone "0123456789" = Except.ok "0123456789" ∧
    mkPhone "123" = Except.error "ValidationError" :=
  ⟨(phone_validation "0123456789").1.mpr (by decide),
    (phone_validation "123").2 (by decide)⟩

theorem entryFor_head_char (today : PyDate) (r : Record) (s : String)
    (h : entryFor today r = some s) : s.data.head? = some 'C' := by
  rw [entryFor] at h
  repeat' split at h
  all_goals try exact Option.noConfusion h
  obtain rfl : _ = s := Option.some.inj h
  rw [String.data_append, String.data_append, String.data_append]
  rfl

theorem joinLines_head_ne (l : List String)
    (hall : ∀ s ∈ l, s.data.head? = some 'C') :
    joinLines l ≠ "No contacts." := by
  cases l with
  | nil =>
    intro h
    exact absurd h (by decide)
  | cons s rest =>
    have hs := hall s (by simp)
    cases rest with
    | nil =>
      intro h
      have h2 : s = "No contacts." := h
      rw [h2] at hs
      exact absurd hs (by decide)
    | cons s2 rest2 =>
      intro h
      have hdata := congrArg String.data h
      rw [show joinLines (s :: s2 :: rest2) = s ++ "\n" ++ joinLines (s2 :: rest2) from rfl]
        at hdata
      rw [String.data_append, String.data_append] at hdata
      have hh := congrArg List.head? hdata
      obtain ⟨t, hsd⟩ : ∃ t, s.data = 'C' :: t := by
        cases hsd : s.data with
        | nil => rw [hsd] at hs; exact absurd hs (by simp)
        | cons c t =>
          rw [hsd] at hs
          simp at hs
          exact ⟨t, by rw [hs]⟩
      rw [hsd] at hh
      simp only [List.cons_append, List.head?_cons] at hh
      exact absurd hh (by decide)

/-- C9: when no record matches the 7-day window, `get_upcoming_birthdays`
returns the empty string; and the `birthdays` handler replies
"No contacts." exactly when the address book itself is empty — never merely
because no birthday fell inside the window. -/
theorem birthdays_empty_book_message (today : PyDate) (book : AddressBook) :
    ((∀ p ∈ book, entryFor today p.2 = none) →
      get_upcoming_birthdays today book = "") ∧
    (birthdays today book = "No contacts." ↔ book = []) := by
  constructor
  · intro hall
    rw [get_upcoming_birthdays]
    have hnil : (book.map Prod.snd).filterMap (entryFor today) = [] := by
      rw [List.filterMap_eq_nil_iff]
      intro a ha
      obtain ⟨p, hp, rfl⟩ := List.mem_map.mp ha
      exact hall p hp
    rw [hnil]
    rfl
  · constructor
    · intro h
      cases hbook : book with
      | nil => rfl
      | cons q qs =>
        exfalso
        rw [hbook, birthdays] at h
        rw [if_neg (by simp)] at h
        rw [get_upcoming_birthdays] at h
        refine joinLines_head_ne _ ?_ h
        intro s hsmem
        obtain ⟨a, _, hsome⟩ := List.mem_filterMap.mp hsmem
        exact entryFor_head_char today a s hsome
    · rintro rfl
      rfl

theorem birthdays_empty_book_message_witness :
    get_upcoming_birthdays ⟨2024, 6, 10⟩
        [("Ann", { name := "Ann", phones := [], birthday := none })] = "" ∧
    ¬ (birthdays ⟨2024, 6, 10⟩
        [("Ann", { name := "Ann", phones := [], birthday := none })] = "No contacts.") := by
  constructor
  · exact (birthdays_empty_book_message ⟨2024, 6, 10⟩
      [("Ann", { name := "Ann", phones := [], birthday := none })]).1 (by decide)
  · intro h
    exact absurd ((birthdays_empty_book_message ⟨2024, 6, 10⟩
      [("Ann", { name := "Ann", phones := [], birthday := none })]).2.mp h) (by decide)

/-- C10: when the named contact exists but holds no entry equal to the old
number, `change_contact` answers with the not-found message and returns the
book exactly as it was — the guard fires before `edit_phone`, so neither
that record's phone list nor any other record changes. -/
theorem change_contact_missing_old_frame (book : AddressBook)
    (n old_phone new_phone : String) (r : Record)
    (hfind : AddressBook.find book n = some r)
    (hphone : r.find_phone old_phone = none) :
    change_contact [n, old_phone, new_phone] book =
      ("No phone number " ++ old_phone ++ " found for contact " ++ n ++ ".", book) := by
  rw [change_contact]
  rw [if_neg (by simp)]
  simp only [hfind, hphone]

theorem change_contact_missing_old_frame_witness :
    change_contact ["John", "2222222222", "3333333333"]
        [("John", { name := "John", phones := ["1111111111"], birthday := none })] =
      ("No phone number " ++ "2222222222" ++ " found for contact " ++ "John" ++ ".",
        [("John", { name := "John", phones := ["1111111111"], birthday := none })]) :=
  change_contact_missing_old_frame
    [("John", { name := "John", phones := ["1111111111"], birthday := none })]
    "John" "2222222222" "3333333333"
    { name := "John", phones := ["1111111111"], birthday := none } (by decide) (by decide)
